import Mathlib

/-!
Shallow embedding of `generate_audio.py` (audio-tossup-generator).

The embedding covers the two cores of the program:
* `parse_csv` — the record-parsing state machine over tabular rows;
* `get_video_path_for_clue` / the per-question main loop — media caching,
  clip assembly, transcript collection, and per-question outcome policy.

Python strings are modelled as Lean `String` (a wrapper around `List Char`),
and the Python string primitives used by the program (`strip`, `startswith`,
`partition`, `replace(_, _, 1)`, `int(...)`) are modelled explicitly over the
character list.  Machine-level details that the program never relies on
(Python arbitrary-precision ints overflow nothing) need no modular reduction.
-/

namespace GenerateAudio

/-! ### Python string primitives -/

/-- Drop leading whitespace characters from a character list. -/
def dropLeadingWs : List Char → List Char
  | [] => []
  | c :: cs => if c.isWhitespace then dropLeadingWs cs else c :: cs

/-- Python `str.strip()`: remove leading and trailing whitespace. -/
def pyStrip (s : String) : String :=
  String.mk (dropLeadingWs ((dropLeadingWs s.data.reverse).reverse))

/-- Python `str.startswith(p)`. -/
def pyStartsWith (s p : String) : Bool :=
  p.data.isPrefixOf s.data

/-- First-occurrence search used by Python `str.partition` and
`str.replace(old, new, 1)`: returns the characters strictly before the first
occurrence of `sep` and the characters strictly after it, or `none` when
`sep` does not occur. -/
def findSplit (sep : List Char) : List Char → Option (List Char × List Char)
  | [] => none
  | c :: cs =>
    if sep.isPrefixOf (c :: cs) then some ([], (c :: cs).drop sep.length)
    else
      match findSplit sep cs with
      | some (b, a) => some (c :: b, a)
      | none => none

/-- Python `s.replace(old, new, 1)`: replace the first occurrence of `old`
by `new`, or return `s` unchanged when `old` does not occur. -/
def pyReplaceFirst (s old new : String) : String :=
  match findSplit old.data s.data with
  | some (b, a) => String.mk (b ++ new.data ++ a)
  | none => s

/-- Python `s.partition(sep)[-1]`: the part strictly after the first
occurrence of `sep`, or the empty string when `sep` does not occur
(in that case `partition` returns `(s, '', '')` whose last component
is `''`). -/
def pyPartitionLast (s sep : String) : String :=
  match findSplit sep.data s.data with
  | some (_, a) => String.mk a
  | none => ""

/-- All-decimal-digit check for a nonempty character list. -/
def allDigits (cs : List Char) : Bool :=
  !cs.isEmpty && cs.all Char.isDigit

/-- Numeric value of a decimal digit list (most significant first). -/
def digitsVal (cs : List Char) : Nat :=
  cs.foldl (fun n c => 10 * n + (c.toNat - ('0').toNat)) 0

/-- Python `int(s)` on a string: strip whitespace, accept an optional sign
followed by a nonempty run of decimal digits; everything else raises
`ValueError` (modelled by `none`).  (Python additionally accepts underscore
digit separators and non-ASCII digits; the program's inputs are ASCII.) -/
def pyInt (s : String) : Option Int :=
  match (pyStrip s).data with
  | '-' :: cs => if allDigits cs then some (-(digitsVal cs : Int)) else none
  | '+' :: cs => if allDigits cs then some ((digitsVal cs : Int)) else none
  | cs => if allDigits cs then some ((digitsVal cs : Int)) else none

/-! ### Data model -/

/-- One row of the CSV input, under the fixed header
`Question ID, Description, Link, Start at (sec), Length (sec)`.
All fields are raw strings, as produced by `csv.DictReader`. -/
structure Row where
  qid : String
  description : String
  link : String
  start : String
  len : String
deriving DecidableEq, Repr

/-- A parsed clue (`current_clue` dict in `parse_csv`): description and link
are kept as raw strings, start and length are `int(...)` of their fields. -/
structure Clue where
  description : String
  link : String
  start : Int
  len : Int
deriving DecidableEq, Repr

/-- A question record (the `current_question` dict): `qid` starts out as
Python `None`, modelled by `Option.none`. -/
structure Question where
  qid : Option String
  question : String
  answer : String
  clues : List Clue
deriving DecidableEq, Repr

/-- `generate_empty_question()`. -/
def generate_empty_question : Question :=
  { qid := none, question := "", answer := "", clues := [] }

/-- The two fatal parse-time failures (`ValueError` in the source; the spec
calls both `MalformedInputError`). -/
inductive MalformedInput where
  | missingQuestionId
  | nonNumericField
deriving DecidableEq, Repr

/-- `_CSV_QUESTION_PREFIX = 'Q:'`. -/
def questionMarker : String := "Q:"

/-- `_CSV_ANSWER_PREFIX = 'A:'`. -/
def answerMarker : String := "A:"

/-- Marker stripped and trimmed: `line[desc].replace(marker, '', 1).strip()`
as applied to a description that starts with the marker. -/
def strippedText (desc marker : String) : String :=
  pyStrip (pyReplaceFirst desc marker "")

/-! ### The parse_csv state machine -/

/-- `all(v == '' for v in line.values())`. -/
def isBlankRow (r : Row) : Bool :=
  r.qid == "" && r.description == "" && r.link == "" && r.start == "" && r.len == ""

/-- `(current_question['qid'] != None) and (line[id] != '') and
(line[id] != current_question['qid'])`. -/
def hasDifferentQuestionId (cur : Question) (r : Row) : Bool :=
  match cur.qid with
  | none => false
  | some q => r.qid != "" && r.qid != q

/-- Python truthiness of `current_question['qid']` (`None` and `''` are
falsy). -/
def pyFalsy : Option String → Bool
  | none => true
  | some s => s == ""

/-- Lines 60–64 of the source: if the accumulator has no id yet, the row
must carry one (after stripping), else `ValueError`; the raw id is stored. -/
def assignQid (cur : Question) (r : Row) : Except MalformedInput Question :=
  if pyFalsy cur.qid then
    if pyStrip r.qid == "" then .error .missingQuestionId
    else .ok { cur with qid := some r.qid }
  else .ok cur

/-- Lines 65–74 of the source: classify the row by its description marker;
a clue row parses its start/length fields with `int(...)`. -/
def classifyRow (cur : Question) (r : Row) : Except MalformedInput Question :=
  if pyStartsWith r.description questionMarker then
    .ok { cur with question := strippedText r.description questionMarker }
  else if pyStartsWith r.description answerMarker then
    .ok { cur with answer := strippedText r.description answerMarker }
  else
    match pyInt r.start with
    | none => .error .nonNumericField
    | some s =>
      match pyInt r.len with
      | none => .error .nonNumericField
      | some l =>
        .ok { cur with clues := cur.clues ++ [⟨r.description, r.link, s, l⟩] }

/-- Lines 60–74: full processing of one non-skipped row against the current
accumulator. -/
def processRow (cur : Question) (r : Row) : Except MalformedInput Question :=
  match assignQid cur r with
  | .error e => .error e
  | .ok c => classifyRow c r

/-- One iteration of the `for line in csv_file` loop (lines 45–74),
rewritten without `continue`: returns the questions completed by this row
(zero or one) together with the new accumulator. -/
def parseStep (cur : Question) (r : Row) :
    Except MalformedInput (List Question × Question) :=
  if isBlankRow r || hasDifferentQuestionId cur r then
    if cur == generate_empty_question then .ok ([], cur)
    else if isBlankRow r then .ok ([cur], generate_empty_question)
    else
      match processRow generate_empty_question r with
      | .error e => .error e
      | .ok cur' => .ok ([cur], cur')
  else
    match processRow cur r with
    | .error e => .error e
    | .ok cur' => .ok ([], cur')

/-- The whole loop plus the final flush (lines 76–78: the trailing
accumulator is appended iff its clue list is nonempty). -/
def parseLoop : List Row → Question → Except MalformedInput (List Question)
  | [], cur => .ok (if cur.clues.isEmpty then [] else [cur])
  | r :: rs, cur =>
    match parseStep cur r with
    | .error e => .error e
    | .ok (done, cur') =>
      match parseLoop rs cur' with
      | .error e => .error e
      | .ok rest => .ok (done ++ rest)

/-- `parse_csv`: run the state machine from the empty accumulator. -/
def parse_csv (rows : List Row) : Except MalformedInput (List Question) :=
  parseLoop rows generate_empty_question

/-- An all-empty row (a blank CSV line). -/
def blankRow : Row := { qid := "", description := "", link := "", start := "", len := "" }

/-- A row that only sets the prompt of question `Q1`. -/
def promptOnlyRow : Row :=
  { qid := "Q1", description := "Q: hi", link := "", start := "", len := "" }

/-- The Question produced by a row that only sets the prompt (its block's
first row). -/
def promptOnlyQuestion (r : Row) : Question :=
  { qid := some r.qid, question := strippedText r.description questionMarker,
    answer := "", clues := [] }

/-- A clue row whose start field holds a negative numeral. -/
def negStartRow : Row := ⟨"Q1", "c", "l", "-1", "2"⟩

/-- A block-initial row whose question-id field is whitespace, not empty. -/
def wsIdRow : Row := ⟨" ", "c", "l", "1", "2"⟩

/-- A row classified as a clue row: its description carries neither the
question nor the answer marker. -/
def isClueRow (r : Row) : Bool :=
  !(pyStartsWith r.description questionMarker) &&
    !(pyStartsWith r.description answerMarker)

/-- Spec-side block bookkeeping: given the id of the currently open block
(`none` when no block is open), a non-blank row is the first row of a new
block iff no block is open or the row carries a non-empty id differing from
the open block's id. -/
def blockFirst (s : Option String) (r : Row) : Bool :=
  match s with
  | none => true
  | some q => r.qid != "" && r.qid != q

/-- Spec-side characterization of the fatal-parse condition, following the
spec's error taxonomy: some block's first row carries a question id that is
blank after stripping, or some clue row has a non-numeric start/length
field (blank rows are skipped and belong to no block). -/
def hasBadRow (s : Option String) : List Row → Bool
  | [] => false
  | r :: rs =>
    if isBlankRow r then hasBadRow none rs
    else if blockFirst s r && (pyStrip r.qid == "") then true
    else if isClueRow r && ((pyInt r.start).isNone || (pyInt r.len).isNone) then true
    else hasBadRow (if blockFirst s r then some r.qid else s) rs

/-- Success test on a parse result. -/
def exceptOk {α : Type} : Except MalformedInput α → Bool
  | .ok _ => true
  | .error _ => false

/-- Spec-side census of the non-empty blocks of a row sequence, blocks being
delimited by blank rows or by a change of non-empty question id; `s` is the
id of the currently open block (`none` when no block is open). -/
def countBlocksAux (s : Option String) : List Row → Nat
  | [] => if s.isSome then 1 else 0
  | r :: rs =>
    if isBlankRow r then (if s.isSome then 1 else 0) + countBlocksAux none rs
    else if blockFirst s r then
      (if s.isSome then 1 else 0) + countBlocksAux (some r.qid) rs
    else countBlocksAux s rs

/-- Spec-side prediction of the parsed questions' ids, in first-encountered
block order: one id (the block's first row's raw question-id field) per
non-empty block, except that a block still open at end of input is included
only when it contains at least one clue row.  `s` is the id of the open
block, `hc` records whether the open block has a clue row so far. -/
def outputIds (s : Option String) (hc : Bool) : List Row → List String
  | [] =>
    match s with
    | some q => if hc then [q] else []
    | none => []
  | r :: rs =>
    if isBlankRow r then
      (match s with | some q => [q] | none => []) ++ outputIds none false rs
    else if blockFirst s r then
      (match s with | some q => [q] | none => []) ++
        outputIds (some r.qid) (isClueRow r) rs
    else outputIds s (hc || isClueRow r) rs

/-- First row of a two-row input whose id changes mid-block. -/
def idChangeRow1 : Row := ⟨"Q1", "clue a", "l1", "3", "4"⟩

/-- Second row of a two-row input whose id changes mid-block. -/
def idChangeRow2 : Row := ⟨"Q2", "clue b", "l2", "5", "6"⟩

/-! ### Media cache (get_video_path_for_clue) -/

/-- `VIDCACHE_DIR = "vidcache"`. -/
def VIDCACHE_DIR : String := "vidcache"

/-- `ERR_VIDEO_PATH = "_err_video_path"`: the Unresolved sentinel. -/
def ERR_VIDEO_PATH : String := "_err_video_path"

/-- `youtube_link.partition('watch?v=')[-1]`: the normalized cache key. -/
def videoId (youtube_link : String) : String :=
  pyPartitionLast youtube_link "watch?v="

/-- The durable-cache path of a video id: both the existence probe
`pathlib.Path(VIDCACHE_DIR, youtube_video_id)` and the download target
`download(VIDCACHE_DIR, youtube_video_id)` of a successful fetch. -/
def cachedPath (k : String) : String := VIDCACHE_DIR ++ "/" ++ k

/-- A capability-reported fetch failure (`pytube.exceptions.PytubeError`,
the only exception the source catches). -/
structure PytubeError where
  msg : String
deriving DecidableEq, Repr

/-- Observable side effects of the pipeline, recorded for frame conditions:
network fetches, audio decodes, artifact exports. -/
inductive Event where
  | fetchCall (link : String)
  | decodeCall (path : String)
  | exportCall (path : String)
deriving DecidableEq, Repr

/-- The durable media cache: the set of video ids whose audio files exist
under `VIDCACHE_DIR` (grows monotonically; no eviction). -/
structure CacheState where
  keys : List String
deriving DecidableEq, Repr

/-- `get_video_path_for_clue`, against an injected Fetcher capability:
normalize the link to its video id; if the durable cache holds the id,
return that path with no fetch; otherwise invoke the Fetcher —
a capability-reported error yields the `ERR_VIDEO_PATH` sentinel and leaves
the cache unchanged, a success persists the file under the id and returns
its path.  The event list records the Fetcher invocations made. -/
def get_video_path_for_clue (fetch : String → Except PytubeError Unit)
    (st : CacheState) (youtube_link : String) :
    CacheState × String × List Event :=
  let k := videoId youtube_link
  if st.keys.contains k then (st, cachedPath k, [])
  else
    match fetch youtube_link with
    | .error _ => (st, ERR_VIDEO_PATH, [.fetchCall youtube_link])
    | .ok _ => (⟨k :: st.keys⟩, cachedPath k, [.fetchCall youtube_link])

/-- A Fetcher that reports a failure on every link. -/
def alwaysFail : String → Except PytubeError Unit :=
  fun _ => .error ⟨"boom"⟩

/-! ### The main loop (per-question assembly and transcripts) -/

/-- The options of `main` that matter per question. -/
structure Args where
  qs : List String
  all : Bool
  output_dir : String
  overwrite : Bool
deriving DecidableEq, Repr

/-- One entry of the `texts` transcript accumulator (line 130). -/
structure TranscriptEntry where
  question_id : Option String
  question : String
  answer : String
  clues : List String
deriving DecidableEq, Repr

/-- Per-question outcomes: the spec's SkippedExisting / NoCluesResolved /
Exported, plus the selection skip of line 126. -/
inductive Outcome where
  | unselected
  | skippedExisting
  | noCluesResolved
  | exported
deriving DecidableEq, Repr

/-- The injected capabilities: the Fetcher, and the decode/slice/fade
capability reporting the duration in milliseconds of the faded clip that
`process_clip(path, start, length)` yields (pydub slicing clamps, so a
duration is a natural number; concatenation adds durations). -/
structure Env where
  fetch : String → Except PytubeError Unit
  clipMs : String → Int → Int → Nat

/-- A resolved clip queued for audio generation (a `clue_clips` entry). -/
structure Clip where
  video_path : String
  start : Int
  len : Int
deriving DecidableEq, Repr

/-- The mutable state of a run: the durable media cache, the audio
artifacts on disk, the transcript accumulator, and the event log. -/
structure RunState where
  cache : CacheState
  files : List String
  texts : List TranscriptEntry
  events : List Event
deriving DecidableEq, Repr

/-- Helper of `list(dict.fromkeys(...))`: `seen` holds the keys already
emitted. -/
def dedupAux (seen : List String) : List String → List String
  | [] => []
  | x :: xs =>
    if seen.contains x then dedupAux seen xs else x :: dedupAux (x :: seen) xs

/-- `list(dict.fromkeys(l))` (line 129): deduplicate keeping the first
occurrence of each element, preserving order. -/
def dedupKeepFirst (l : List String) : List String := dedupAux [] l

/-- `pathlib.Path(output_dir, qid).with_suffix('.mp3')` for a dot-free id
(the ids this program uses). -/
def outputPath (output_dir qid : String) : String :=
  output_dir ++ "/" ++ qid ++ ".mp3"

/-- Negation of the selection skip
`(not args.all) and (question['qid'] not in args.qs)` (line 126). -/
def isSelected (args : Args) (q : Question) : Bool :=
  args.all || (match q.qid with | some i => args.qs.contains i | none => false)

/-- Lines 139–145: resolve each clue through the cache in original order,
dropping those whose resolution returns the sentinel; returns the updated
cache, the events, and the `clue_clips` list. -/
def collectClips (env : Env) : CacheState → List Clue → CacheState × List Event × List Clip
  | cache, [] => (cache, [], [])
  | cache, c :: cs =>
    let r1 := get_video_path_for_clue env.fetch cache c.link
    let rest := collectClips env r1.1 cs
    if r1.2.1 = ERR_VIDEO_PATH then (rest.1, r1.2.2 ++ rest.2.1, rest.2.2)
    else (rest.1, r1.2.2 ++ rest.2.1, ⟨r1.2.1, c.start, c.len⟩ :: rest.2.2)

/-- Lines 148–150: decode each collected clip and accumulate the total
duration of the concatenation. -/
def generateAudio (env : Env) (clips : List Clip) : List Event × Nat :=
  (clips.map (fun cl => Event.decodeCall cl.video_path),
   (clips.map (fun cl => env.clipMs cl.video_path cl.start cl.len)).sum)

/-- The transcript entry collected for a selected question (lines 129–130):
clue descriptions deduplicated preserving first-seen order. -/
def transcriptEntry (q : Question) : TranscriptEntry :=
  ⟨q.qid, q.question, q.answer, dedupKeepFirst (q.clues.map (fun c => c.description))⟩

/-- Lines 125–157: processing of one question of the parsed data.  The
transcript entry is collected before the existing-artifact check; the
export happens only when the accumulated duration is positive
(`duration_seconds <= 0` for pydub means total duration 0).  Selected
questions always carry an id (`getD ""` is never exercised on parse
output). -/
def processQuestion (env : Env) (args : Args) (st : RunState) (question : Question) :
    RunState × Outcome :=
  if !isSelected args question then (st, .unselected)
  else
    let st1 : RunState := { st with texts := st.texts ++ [transcriptEntry question] }
    let path := outputPath args.output_dir ((question.qid).getD "")
    if st1.files.contains path && !args.overwrite then (st1, .skippedExisting)
    else
      let col := collectClips env st1.cache question.clues
      let gen := generateAudio env col.2.2
      let st2 : RunState :=
        { st1 with cache := col.1, events := st1.events ++ col.2.1 ++ gen.1 }
      if gen.2 = 0 then (st2, .noCluesResolved)
      else
        let st3 : RunState :=
          { st2 with
              files := st2.files ++ [path]
              events := st2.events ++ [.exportCall path] }
        (st3, .exported)

/-- The whole per-question loop of `main`, in input order. -/
def runQuestions (env : Env) (args : Args) : RunState → List Question → RunState × List Outcome
  | st, [] => (st, [])
  | st, q :: qs =>
    let r1 := processQuestion env args st q
    let rest := runQuestions env args r1.1 qs
    (rest.1, r1.2 :: rest.2)

/-- A concrete environment: every fetch fails, every decoded clip lasts one
second. -/
def constEnv : Env := ⟨alwaysFail, fun _ _ _ => 1000⟩

/-- A concrete environment whose fetches succeed. -/
def okEnv : Env := ⟨fun _ => .ok (), fun _ _ _ => 1000⟩

/-- `--all` with an empty output directory name and no overwrite. -/
def allArgs : Args := ⟨[], true, "out", false⟩

/-- The empty run state. -/
def st0 : RunState := ⟨⟨[]⟩, [], [], []⟩

/-- A question with a single unresolvable clue. -/
def q6 : Question := ⟨some "Q1", "", "", [⟨"c", "L", 0, 1⟩]⟩

/-- A run state already holding the output artifact for `Q1`. -/
def stExisting : RunState := ⟨⟨[]⟩, [outputPath "out" "Q1"], [], []⟩

/-- A question with duplicate clue descriptions over a cached link. -/
def q8 : Question :=
  ⟨some "Q1", "", "", [⟨"x", "watch?v=k", 0, 1⟩, ⟨"y", "watch?v=k", 2, 1⟩,
    ⟨"x", "watch?v=k", 4, 1⟩]⟩

/-- A row whose description carries the question or the answer marker
(a prompt/answer row, never a clue row). -/
def isMarkerRow (r : Row) : Bool :=
  pyStartsWith r.description questionMarker || pyStartsWith r.description answerMarker

/-- A continuation row that only sets the answer. -/
def answerOnlyRow : Row :=
  { qid := "", description := "A: ans", link := "", start := "", len := "" }

/-- A prompt row whose link/start/length fields hold non-numeric junk. -/
def q9row : Row := ⟨"Q1", "Q: hi", "ZZ", "xx", "yy"⟩

/-! ### Basic facts about the step function -/

theorem isBlankRow_false_of_desc {r : Row} (h : r.description ≠ "") :
    isBlankRow r = false := by
  simp [isBlankRow]
  intro _ h2
  exact absurd h2 h

theorem desc_ne_empty_of_marker {r : Row} {m : String} (hm : m.data ≠ [])
    (h : pyStartsWith r.description m = true) : r.description ≠ "" := by
  intro he
  rw [he] at h
  simp only [pyStartsWith] at h
  have : m.data <+: ([] : List Char) := by
    simpa using List.isPrefixOf_iff_prefix.mp h
  exact hm (List.prefix_nil.mp this)

theorem bool_eq_false {b : Bool} (h : ¬ b = true) : b = false := by
  cases b
  · rfl
  · exact absurd rfl h

theorem pyStrip_empty : pyStrip "" = "" := by decide

theorem ne_empty_of_strip {s : String} (h : (pyStrip s == "") = false) : s ≠ "" := by
  intro he
  rw [he] at h
  rw [pyStrip_empty] at h
  simp at h

theorem classifyRow_marker (cur : Question) (r : Row) (h : isClueRow r = false) :
    ∃ c', classifyRow cur r = .ok c' ∧ c'.qid = cur.qid ∧ c'.clues = cur.clues := by
  by_cases h1 : pyStartsWith r.description questionMarker = true
  · exact ⟨{ cur with question := strippedText r.description questionMarker },
      by simp [classifyRow, h1], rfl, rfl⟩
  · have h1' : pyStartsWith r.description questionMarker = false := bool_eq_false h1
    have h2 : pyStartsWith r.description answerMarker = true := by
      simp [isClueRow, h1'] at h
      exact h
    exact ⟨{ cur with answer := strippedText r.description answerMarker },
      by simp [classifyRow, h1', h2], rfl, rfl⟩

theorem classifyRow_clue_error (cur : Question) (r : Row) (h : isClueRow r = true)
    (hb : ((pyInt r.start).isNone || (pyInt r.len).isNone) = true) :
    classifyRow cur r = .error .nonNumericField := by
  have h' := h
  simp only [isClueRow, Bool.and_eq_true, Bool.not_eq_true'] at h'
  obtain ⟨h1, h2⟩ := h'
  cases hs : pyInt r.start with
  | none => simp [classifyRow, h1, h2, hs]
  | some s =>
    cases hl : pyInt r.len with
    | none => simp [classifyRow, h1, h2, hs, hl]
    | some l => rw [hs, hl] at hb; simp at hb

theorem classifyRow_clue_ok (cur : Question) (r : Row) {s l : Int} (h : isClueRow r = true)
    (hs : pyInt r.start = some s) (hl : pyInt r.len = some l) :
    classifyRow cur r =
      .ok { cur with clues := cur.clues ++ [⟨r.description, r.link, s, l⟩] } := by
  have h' := h
  simp only [isClueRow, Bool.and_eq_true, Bool.not_eq_true'] at h'
  obtain ⟨h1, h2⟩ := h'
  simp [classifyRow, h1, h2, hs, hl]

theorem processRow_falsy_bad (cur : Question) (r : Row) (h : pyFalsy cur.qid = true)
    (h2 : (pyStrip r.qid == "") = true) :
    processRow cur r = .error .missingQuestionId := by
  simp [processRow, assignQid, h, h2]

theorem processRow_falsy_ok (cur : Question) (r : Row) (h : pyFalsy cur.qid = true)
    (h2 : (pyStrip r.qid == "") = false) :
    processRow cur r = classifyRow { cur with qid := some r.qid } r := by
  simp [processRow, assignQid, h, h2]

theorem processRow_set (cur : Question) (r : Row) (h : pyFalsy cur.qid = false) :
    processRow cur r = classifyRow cur r := by
  simp only [processRow, assignQid, h, Bool.false_eq_true, if_false]

theorem parseStep_blank_empty {cur : Question} {r : Row} (h : isBlankRow r = true)
    (he : cur = generate_empty_question) : parseStep cur r = .ok ([], cur) := by
  simp [parseStep, h, he]

theorem parseStep_blank_ne {cur : Question} {r : Row} (h : isBlankRow r = true)
    (he : ¬ cur = generate_empty_question) :
    parseStep cur r = .ok ([cur], generate_empty_question) := by
  simp [parseStep, h, he]

theorem parseStep_cont {cur : Question} {r : Row} (h : isBlankRow r = false)
    (hd : hasDifferentQuestionId cur r = false) :
    parseStep cur r = match processRow cur r with
      | .error e => .error e
      | .ok cur' => .ok ([], cur') := by
  simp [parseStep, h, hd]

theorem parseStep_newblock {cur : Question} {r : Row} (h : isBlankRow r = false)
    (hd : hasDifferentQuestionId cur r = true) :
    parseStep cur r = match processRow generate_empty_question r with
      | .error e => .error e
      | .ok cur' => .ok ([cur], cur') := by
  have hne : ¬ cur = generate_empty_question := by
    intro he; rw [he] at hd
    simp [hasDifferentQuestionId, generate_empty_question] at hd
  simp [parseStep, h, hd, hne]

theorem parseLoop_cons_err {cur : Question} {r : Row} {e : MalformedInput}
    (rs : List Row) (h : parseStep cur r = .error e) :
    parseLoop (r :: rs) cur = .error e := by
  simp [parseLoop, h]

theorem parseLoop_cons_ok {cur cur' : Question} {r : Row} {done : List Question}
    (rs : List Row) (h : parseStep cur r = .ok (done, cur')) :
    parseLoop (r :: rs) cur =
      match parseLoop rs cur' with
      | .error e => .error e
      | .ok rest => .ok (done ++ rest) := by
  simp [parseLoop, h]

theorem exceptOk_match (done : List Question) (x : Except MalformedInput (List Question)) :
    exceptOk (match x with
      | .error e => (.error e : Except MalformedInput (List Question))
      | .ok rest => .ok (done ++ rest)) = exceptOk x := by
  cases x <;> rfl

theorem hasDiff_none {cur : Question} (r : Row) (h : cur.qid = none) :
    hasDifferentQuestionId cur r = false := by
  simp [hasDifferentQuestionId, h]

theorem blockFirst_eq_hasDiff {cur : Question} {q : String} (h : cur.qid = some q) (r : Row) :
    blockFirst cur.qid r = hasDifferentQuestionId cur r := by
  simp [blockFirst, hasDifferentQuestionId, h]

theorem opt_some_of_isNone_false {α : Type} {o : Option α} (h : o.isNone = false) :
    ∃ a, o = some a := by
  cases o with
  | none => simp at h
  | some a => exact ⟨a, rfl⟩

theorem inv1_of_qid_some {c : Question} {q : String} (h : c.qid = some q) :
    c.qid = none → c = generate_empty_question := by
  intro hx; rw [h] at hx; exact absurd hx (by simp)

theorem inv2_of_qid_some {c : Question} {q : String} (h : c.qid = some q) (hne : q ≠ "") :
    ∀ q', c.qid = some q' → q' ≠ "" := by
  intro q' hq'
  rw [h] at hq'
  injection hq' with hh
  rw [← hh]
  exact hne

theorem parseLoop_ok_char (rows : List Row) : ∀ cur : Question,
    (cur.qid = none → cur = generate_empty_question) →
    (∀ q, cur.qid = some q → q ≠ "") →
    exceptOk (parseLoop rows cur) = !hasBadRow cur.qid rows := by
  induction rows with
  | nil => intro cur _ _; simp [parseLoop, hasBadRow, exceptOk]
  | cons r rs IH =>
    intro cur hinv1 hinv2
    by_cases hbt : isBlankRow r = true
    · by_cases he : cur = generate_empty_question
      · rw [parseLoop_cons_ok rs (parseStep_blank_empty hbt he), exceptOk_match,
          IH cur hinv1 hinv2]
        have hq : cur.qid = none := by rw [he]; rfl
        rw [hq]
        simp [hasBadRow, hbt]
      · rw [parseLoop_cons_ok rs (parseStep_blank_ne hbt he), exceptOk_match,
          IH generate_empty_question (fun _ => rfl)
            (by intro q hq; simp [generate_empty_question] at hq)]
        simp [hasBadRow, hbt, generate_empty_question]
    · have hb' : isBlankRow r = false := bool_eq_false hbt
      by_cases hdt : hasDifferentQuestionId cur r = true
      · -- id change: flush `cur`, reprocess `r` against a fresh accumulator
        obtain ⟨q, hq⟩ : ∃ q, cur.qid = some q := by
          cases hqq : cur.qid with
          | none => rw [hasDiff_none r hqq] at hdt; exact absurd hdt (by simp)
          | some q => exact ⟨q, rfl⟩
        have hbf : blockFirst cur.qid r = true := by
          rw [blockFirst_eq_hasDiff hq]; exact hdt
        by_cases hq0t : (pyStrip r.qid == "") = true
        · have hstep : parseStep cur r = .error .missingQuestionId := by
            rw [parseStep_newblock hb' hdt,
              processRow_falsy_bad generate_empty_question r rfl hq0t]
          rw [parseLoop_cons_err rs hstep]
          simp [exceptOk, hasBadRow, hb', hbf, hq0t]
        · have hq0 : (pyStrip r.qid == "") = false := bool_eq_false hq0t
          have hrne : r.qid ≠ "" := ne_empty_of_strip hq0
          have hpr : processRow generate_empty_question r =
              classifyRow { generate_empty_question with qid := some r.qid } r :=
            processRow_falsy_ok generate_empty_question r rfl hq0
          by_cases hclt : isClueRow r = true
          · by_cases hbadt : ((pyInt r.start).isNone || (pyInt r.len).isNone) = true
            · have hstep : parseStep cur r = .error .nonNumericField := by
                rw [parseStep_newblock hb' hdt, hpr, classifyRow_clue_error _ r hclt hbadt]
              rw [parseLoop_cons_err rs hstep]
              simp [exceptOk, hasBadRow, hb', hbf, hq0, hclt, hbadt]
            · have hbad : ((pyInt r.start).isNone || (pyInt r.len).isNone) = false :=
                bool_eq_false hbadt
              obtain ⟨hbs, hbl⟩ := Bool.or_eq_false_iff.mp hbad
              obtain ⟨s, hs⟩ := opt_some_of_isNone_false hbs
              obtain ⟨l, hl⟩ := opt_some_of_isNone_false hbl
              have hstep : parseStep cur r = .ok ([cur],
                  ⟨some r.qid, "", "", [⟨r.description, r.link, s, l⟩]⟩) := by
                rw [parseStep_newblock hb' hdt, hpr, classifyRow_clue_ok _ r hclt hs hl]
                rfl
              rw [parseLoop_cons_ok rs hstep, exceptOk_match,
                IH _ (inv1_of_qid_some rfl) (inv2_of_qid_some rfl hrne)]
              simp [hasBadRow, hb', hbf, hq0, hclt, hbad]
          · have hcl : isClueRow r = false := bool_eq_false hclt
            obtain ⟨c', hc', hcq, _⟩ :=
              classifyRow_marker { generate_empty_question with qid := some r.qid } r hcl
            have hcq' : c'.qid = some r.qid := by rw [hcq]
            have hstep : parseStep cur r = .ok ([cur], c') := by
              rw [parseStep_newblock hb' hdt, hpr, hc']
            rw [parseLoop_cons_ok rs hstep, exceptOk_match,
              IH c' (inv1_of_qid_some hcq') (inv2_of_qid_some hcq' hrne), hcq']
            simp [hasBadRow, hb', hbf, hq0, hcl]
      · have hd : hasDifferentQuestionId cur r = false := bool_eq_false hdt
        cases hqq : cur.qid with
        | none =>
          have he := hinv1 hqq
          subst he
          have hbf : blockFirst (none : Option String) r = true := rfl
          by_cases hq0t : (pyStrip r.qid == "") = true
          · have hstep : parseStep generate_empty_question r = .error .missingQuestionId := by
              rw [parseStep_cont hb' hd,
                processRow_falsy_bad generate_empty_question r rfl hq0t]
            rw [parseLoop_cons_err rs hstep]
            simp [exceptOk, hasBadRow, hb', hbf, hq0t]
          · have hq0 : (pyStrip r.qid == "") = false := bool_eq_false hq0t
            have hrne : r.qid ≠ "" := ne_empty_of_strip hq0
            have hpr : processRow generate_empty_question r =
                classifyRow { generate_empty_question with qid := some r.qid } r :=
              processRow_falsy_ok generate_empty_question r rfl hq0
            by_cases hclt : isClueRow r = true
            · by_cases hbadt : ((pyInt r.start).isNone || (pyInt r.len).isNone) = true
              · have hstep : parseStep generate_empty_question r = .error .nonNumericField := by
                  rw [parseStep_cont hb' hd, hpr, classifyRow_clue_error _ r hclt hbadt]
                rw [parseLoop_cons_err rs hstep]
                simp [exceptOk, hasBadRow, hb', hbf, hq0t, hclt, hbadt]
              · have hbad : ((pyInt r.start).isNone || (pyInt r.len).isNone) = false :=
                  bool_eq_false hbadt
                obtain ⟨hbs, hbl⟩ := Bool.or_eq_false_iff.mp hbad
                obtain ⟨s, hs⟩ := opt_some_of_isNone_false hbs
                obtain ⟨l, hl⟩ := opt_some_of_isNone_false hbl
                have hstep : parseStep generate_empty_question r = .ok ([],
                    ⟨some r.qid, "", "", [⟨r.description, r.link, s, l⟩]⟩) := by
                  rw [parseStep_cont hb' hd, hpr, classifyRow_clue_ok _ r hclt hs hl]
                  rfl
                rw [parseLoop_cons_ok rs hstep, exceptOk_match,
                  IH _ (inv1_of_qid_some rfl) (inv2_of_qid_some rfl hrne)]
                simp [hasBadRow, hb', hbf, hq0, hclt, hbad]
            · have hcl : isClueRow r = false := bool_eq_false hclt
              obtain ⟨c', hc', hcq, _⟩ :=
                classifyRow_marker { generate_empty_question with qid := some r.qid } r hcl
              have hcq' : c'.qid = some r.qid := by rw [hcq]
              have hstep : parseStep generate_empty_question r = .ok ([], c') := by
                rw [parseStep_cont hb' hd, hpr, hc']
              rw [parseLoop_cons_ok rs hstep, exceptOk_match,
                IH c' (inv1_of_qid_some hcq') (inv2_of_qid_some hcq' hrne), hcq']
              simp [hasBadRow, hb', hbf, hq0, hcl]
        | some q =>
          have hqne : q ≠ "" := hinv2 q hqq
          have hfal : pyFalsy cur.qid = false := by
            rw [hqq]
            simp [pyFalsy, hqne]
          have hpr : processRow cur r = classifyRow cur r := processRow_set cur r hfal
          have hbf : blockFirst cur.qid r = false := by
            rw [blockFirst_eq_hasDiff hqq]; exact hd
          by_cases hclt : isClueRow r = true
          · by_cases hbadt : ((pyInt r.start).isNone || (pyInt r.len).isNone) = true
            · have hstep : parseStep cur r = .error .nonNumericField := by
                rw [parseStep_cont hb' hd, hpr, classifyRow_clue_error cur r hclt hbadt]
              rw [parseLoop_cons_err rs hstep]
              simp [exceptOk, hasBadRow, hb', hbf, hclt, hbadt]
            · have hbad : ((pyInt r.start).isNone || (pyInt r.len).isNone) = false :=
                bool_eq_false hbadt
              obtain ⟨hbs, hbl⟩ := Bool.or_eq_false_iff.mp hbad
              obtain ⟨s, hs⟩ := opt_some_of_isNone_false hbs
              obtain ⟨l, hl⟩ := opt_some_of_isNone_false hbl
              have hstep : parseStep cur r = .ok ([],
                  { cur with clues := cur.clues ++ [⟨r.description, r.link, s, l⟩] }) := by
                rw [parseStep_cont hb' hd, hpr, classifyRow_clue_ok cur r hclt hs hl]
              have hcq' : Question.qid { cur with clues := cur.clues ++
                  [Clue.mk r.description r.link s l] } = some q := hqq
              have hbf' : blockFirst (some q) r = false := by rw [← hqq]; exact hbf
              rw [parseLoop_cons_ok rs hstep, exceptOk_match,
                IH _ (inv1_of_qid_some hcq') (inv2_of_qid_some hcq' hqne), hcq']
              simp [hasBadRow, hb', hbf', hclt, hbad]
          · have hcl : isClueRow r = false := bool_eq_false hclt
            obtain ⟨c', hc', hcq, _⟩ := classifyRow_marker cur r hcl
            have hcq' : c'.qid = some q := by rw [hcq]; exact hqq
            have hstep : parseStep cur r = .ok ([], c') := by
              rw [parseStep_cont hb' hd, hpr, hc']
            have hbf' : blockFirst (some q) r = false := by rw [← hqq]; exact hbf
            rw [parseLoop_cons_ok rs hstep, exceptOk_match,
              IH c' (inv1_of_qid_some hcq') (inv2_of_qid_some hcq' hqne), hcq']
            simp [hasBadRow, hb', hbf', hcl]

theorem parseLoop_cons_err_inv {cur : Question} {r : Row} {e : MalformedInput}
    {qs : List Question} (rs : List Row) (hstep : parseStep cur r = .error e)
    (h : parseLoop (r :: rs) cur = .ok qs) : False := by
  rw [parseLoop_cons_err rs hstep] at h
  simp at h

theorem parseLoop_cons_ok_inv {cur cur' : Question} {r : Row} {done qs : List Question}
    (rs : List Row) (hstep : parseStep cur r = .ok (done, cur'))
    (h : parseLoop (r :: rs) cur = .ok qs) :
    ∃ rest, parseLoop rs cur' = .ok rest ∧ qs = done ++ rest := by
  rw [parseLoop_cons_ok rs hstep] at h
  cases hrest : parseLoop rs cur' with
  | error e => rw [hrest] at h; simp at h
  | ok rest => rw [hrest] at h; simp at h; exact ⟨rest, rfl, h.symm⟩

theorem qid_some_of_ne_empty {cur : Question}
    (hinv1 : cur.qid = none → cur = generate_empty_question)
    (hne : ¬ cur = generate_empty_question) : ∃ q, cur.qid = some q := by
  cases hqq : cur.qid with
  | none => exact absurd (hinv1 hqq) hne
  | some q => exact ⟨q, rfl⟩

theorem parseLoop_ids (rows : List Row) : ∀ (cur : Question) (qs : List Question),
    (cur.qid = none → cur = generate_empty_question) →
    (∀ q, cur.qid = some q → q ≠ "") →
    parseLoop rows cur = .ok qs →
    qs.map Question.qid = (outputIds cur.qid (!cur.clues.isEmpty) rows).map some := by
  induction rows with
  | nil =>
    intro cur qs hinv1 hinv2 h
    simp only [parseLoop] at h
    cases hce : cur.clues.isEmpty with
    | true =>
      rw [hce] at h
      simp at h
      subst h
      cases hqq : cur.qid with
      | none => simp [outputIds, hqq]
      | some q => simp [outputIds, hqq, hce]
    | false =>
      rw [hce] at h
      simp at h
      subst h
      obtain ⟨q, hqq⟩ : ∃ q, cur.qid = some q := by
        refine qid_some_of_ne_empty hinv1 ?_
        intro he
        rw [he] at hce
        simp [generate_empty_question] at hce
      simp [outputIds, hqq, hce]
  | cons r rs IH =>
    intro cur qs hinv1 hinv2 h
    by_cases hbt : isBlankRow r = true
    · by_cases he : cur = generate_empty_question
      · obtain ⟨rest, hrest, hqs⟩ :=
          parseLoop_cons_ok_inv rs (parseStep_blank_empty hbt he) h
        have hq : cur.qid = none := by rw [he]; rfl
        have hclue : cur.clues.isEmpty = true := by rw [he]; rfl
        rw [hqs, List.nil_append, IH cur rest hinv1 hinv2 hrest]
        simp [outputIds, hbt, hq, hclue]
      · obtain ⟨rest, hrest, hqs⟩ :=
          parseLoop_cons_ok_inv rs (parseStep_blank_ne hbt he) h
        obtain ⟨q, hqq⟩ := qid_some_of_ne_empty hinv1 he
        rw [hqs, List.map_append,
          IH generate_empty_question rest (fun _ => rfl)
            (by intro q' hq'; simp [generate_empty_question] at hq') hrest]
        simp [outputIds, hbt, hqq, generate_empty_question]
    · have hb' : isBlankRow r = false := bool_eq_false hbt
      by_cases hdt : hasDifferentQuestionId cur r = true
      · obtain ⟨q, hq⟩ : ∃ q, cur.qid = some q := by
          cases hqq : cur.qid with
          | none => rw [hasDiff_none r hqq] at hdt; exact absurd hdt (by simp)
          | some q => exact ⟨q, rfl⟩
        have hbf : blockFirst cur.qid r = true := by
          rw [blockFirst_eq_hasDiff hq]; exact hdt
        have hbf2 : blockFirst (some q) r = true := by rw [← hq]; exact hbf
        by_cases hq0t : (pyStrip r.qid == "") = true
        · exact absurd h (by
            intro hcon
            exact parseLoop_cons_err_inv rs (by
              rw [parseStep_newblock hb' hdt,
                processRow_falsy_bad generate_empty_question r rfl hq0t]) hcon)
        · have hq0 : (pyStrip r.qid == "") = false := bool_eq_false hq0t
          have hrne : r.qid ≠ "" := ne_empty_of_strip hq0
          have hpr : processRow generate_empty_question r =
              classifyRow { generate_empty_question with qid := some r.qid } r :=
            processRow_falsy_ok generate_empty_question r rfl hq0
          by_cases hclt : isClueRow r = true
          · by_cases hbadt : ((pyInt r.start).isNone || (pyInt r.len).isNone) = true
            · exact absurd h (by
                intro hcon
                exact parseLoop_cons_err_inv rs (by
                  rw [parseStep_newblock hb' hdt, hpr,
                    classifyRow_clue_error _ r hclt hbadt]) hcon)
            · have hbad : ((pyInt r.start).isNone || (pyInt r.len).isNone) = false :=
                bool_eq_false hbadt
              obtain ⟨hbs, hbl⟩ := Bool.or_eq_false_iff.mp hbad
              obtain ⟨s, hs⟩ := opt_some_of_isNone_false hbs
              obtain ⟨l, hl⟩ := opt_some_of_isNone_false hbl
              have hstep : parseStep cur r = .ok ([cur],
                  ⟨some r.qid, "", "", [⟨r.description, r.link, s, l⟩]⟩) := by
                rw [parseStep_newblock hb' hdt, hpr, classifyRow_clue_ok _ r hclt hs hl]
                rfl
              obtain ⟨rest, hrest, hqs⟩ := parseLoop_cons_ok_inv rs hstep h
              rw [hqs, List.map_append,
                IH _ rest (inv1_of_qid_some rfl) (inv2_of_qid_some rfl hrne) hrest]
              simp [outputIds, hb', hbf2, hq, hclt]
          · have hcl : isClueRow r = false := bool_eq_false hclt
            obtain ⟨c', hc', hcq, hcc⟩ :=
              classifyRow_marker { generate_empty_question with qid := some r.qid } r hcl
            have hcq' : c'.qid = some r.qid := by rw [hcq]
            have hccl : c'.clues.isEmpty = true := by rw [hcc]; rfl
            have hstep : parseStep cur r = .ok ([cur], c') := by
              rw [parseStep_newblock hb' hdt, hpr, hc']
            obtain ⟨rest, hrest, hqs⟩ := parseLoop_cons_ok_inv rs hstep h
            rw [hqs, List.map_append,
              IH c' rest (inv1_of_qid_some hcq') (inv2_of_qid_some hcq' hrne) hrest,
              hcq', hccl]
            simp [outputIds, hb', hbf2, hq, hcl]
      · have hd : hasDifferentQuestionId cur r = false := bool_eq_false hdt
        cases hqq : cur.qid with
        | none =>
          have he := hinv1 hqq
          subst he
          by_cases hq0t : (pyStrip r.qid == "") = true
          · exact absurd h (by
              intro hcon
              exact parseLoop_cons_err_inv rs (by
                rw [parseStep_cont hb' hd,
                  processRow_falsy_bad generate_empty_question r rfl hq0t]) hcon)
          · have hq0 : (pyStrip r.qid == "") = false := bool_eq_false hq0t
            have hrne : r.qid ≠ "" := ne_empty_of_strip hq0
            have hpr : processRow generate_empty_question r =
                classifyRow { generate_empty_question with qid := some r.qid } r :=
              processRow_falsy_ok generate_empty_question r rfl hq0
            by_cases hclt : isClueRow r = true
            · by_cases hbadt : ((pyInt r.start).isNone || (pyInt r.len).isNone) = true
              · exact absurd h (by
                  intro hcon
                  exact parseLoop_cons_err_inv rs (by
                    rw [parseStep_cont hb' hd, hpr,
                      classifyRow_clue_error _ r hclt hbadt]) hcon)
              · have hbad : ((pyInt r.start).isNone || (pyInt r.len).isNone) = false :=
                  bool_eq_false hbadt
                obtain ⟨hbs, hbl⟩ := Bool.or_eq_false_iff.mp hbad
                obtain ⟨s, hs⟩ := opt_some_of_isNone_false hbs
                obtain ⟨l, hl⟩ := opt_some_of_isNone_false hbl
                have hstep : parseStep generate_empty_question r = .ok ([],
                    ⟨some r.qid, "", "", [⟨r.description, r.link, s, l⟩]⟩) := by
                  rw [parseStep_cont hb' hd, hpr, classifyRow_clue_ok _ r hclt hs hl]
                  rfl
                obtain ⟨rest, hrest, hqs⟩ := parseLoop_cons_ok_inv rs hstep h
                rw [hqs, List.nil_append,
                  IH _ rest (inv1_of_qid_some rfl) (inv2_of_qid_some rfl hrne) hrest]
                simp [outputIds, hb', blockFirst, hclt, generate_empty_question]
            · have hcl : isClueRow r = false := bool_eq_false hclt
              obtain ⟨c', hc', hcq, hcc⟩ :=
                classifyRow_marker { generate_empty_question with qid := some r.qid } r hcl
              have hcq' : c'.qid = some r.qid := by rw [hcq]
              have hccl : c'.clues.isEmpty = true := by rw [hcc]; rfl
              have hstep : parseStep generate_empty_question r = .ok ([], c') := by
                rw [parseStep_cont hb' hd, hpr, hc']
              obtain ⟨rest, hrest, hqs⟩ := parseLoop_cons_ok_inv rs hstep h
              rw [hqs, List.nil_append,
                IH c' rest (inv1_of_qid_some hcq') (inv2_of_qid_some hcq' hrne) hrest,
                hcq', hccl]
              simp [outputIds, hb', blockFirst, hcl, generate_empty_question]
        | some q =>
          have hqne : q ≠ "" := hinv2 q hqq
          have hfal : pyFalsy cur.qid = false := by
            rw [hqq]
            simp [pyFalsy, hqne]
          have hpr : processRow cur r = classifyRow cur r := processRow_set cur r hfal
          have hbf : blockFirst cur.qid r = false := by
            rw [blockFirst_eq_hasDiff hqq]; exact hd
          have hbf2 : blockFirst (some q) r = false := by rw [← hqq]; exact hbf
          by_cases hclt : isClueRow r = true
          · by_cases hbadt : ((pyInt r.start).isNone || (pyInt r.len).isNone) = true
            · exact absurd h (by
                intro hcon
                exact parseLoop_cons_err_inv rs (by
                  rw [parseStep_cont hb' hd, hpr,
                    classifyRow_clue_error cur r hclt hbadt]) hcon)
            · have hbad : ((pyInt r.start).isNone || (pyInt r.len).isNone) = false :=
                bool_eq_false hbadt
              obtain ⟨hbs, hbl⟩ := Bool.or_eq_false_iff.mp hbad
              obtain ⟨s, hs⟩ := opt_some_of_isNone_false hbs
              obtain ⟨l, hl⟩ := opt_some_of_isNone_false hbl
              have hstep : parseStep cur r = .ok ([],
                  { cur with clues := cur.clues ++ [⟨r.description, r.link, s, l⟩] }) := by
                rw [parseStep_cont hb' hd, hpr, classifyRow_clue_ok cur r hclt hs hl]
              have hcq' : Question.qid { cur with clues := cur.clues ++
                  [Clue.mk r.description r.link s l] } = some q := hqq
              obtain ⟨rest, hrest, hqs⟩ := parseLoop_cons_ok_inv rs hstep h
              have hne2 : (!(cur.clues ++
                  [Clue.mk r.description r.link s l]).isEmpty) = true := by
                cases cur.clues <;> rfl
              rw [hqs, List.nil_append,
                IH _ rest (inv1_of_qid_some hcq') (inv2_of_qid_some hcq' hqne) hrest,
                hcq', hne2]
              simp [outputIds, hb', hbf2, hclt]
          · have hcl : isClueRow r = false := bool_eq_false hclt
            obtain ⟨c', hc', hcq, hcc⟩ := classifyRow_marker cur r hcl
            have hcq' : c'.qid = some q := by rw [hcq]; exact hqq
            have hstep : parseStep cur r = .ok ([], c') := by
              rw [parseStep_cont hb' hd, hpr, hc']
            obtain ⟨rest, hrest, hqs⟩ := parseLoop_cons_ok_inv rs hstep h
            rw [hqs, List.nil_append,
              IH c' rest (inv1_of_qid_some hcq') (inv2_of_qid_some hcq' hqne) hrest,
              hcq', hcc]
            simp [outputIds, hb', hbf2, hcl]

theorem findSplit_first (sep : List Char) (c0 : Char) (hhead : sep.head? = some c0) :
    ∀ pre post : List Char, c0 ∉ pre →
      findSplit sep (pre ++ sep ++ post) = some (pre, post) := by
  obtain ⟨stail, rfl⟩ : ∃ t, sep = c0 :: t := by
    cases sep with
    | nil => simp at hhead
    | cons a t =>
      simp at hhead
      exact ⟨t, by rw [hhead]⟩
  intro pre
  induction pre with
  | nil =>
    intro post _
    simp only [List.nil_append]
    rw [List.cons_append, findSplit]
    rw [if_pos]
    · rw [← List.cons_append, List.drop_left]
    · rw [← List.cons_append]
      exact List.isPrefixOf_iff_prefix.mpr (List.prefix_append _ _)
  | cons c cs ih =>
    intro post hc
    have hne : c0 ≠ c := fun he => hc (he ▸ List.mem_cons_self c cs)
    have hcs : c0 ∉ cs := fun hm => hc (List.mem_cons_of_mem c hm)
    rw [List.cons_append, List.cons_append, findSplit]
    rw [if_neg]
    · rw [ih post hcs]
    · intro hp
      rw [List.isPrefixOf_iff_prefix] at hp
      obtain ⟨t, ht⟩ := hp
      rw [List.cons_append] at ht
      injection ht with h1 _
      exact hne h1

theorem findSplit_some_structure (sep : List Char) :
    ∀ l b a : List Char, findSplit sep l = some (b, a) → l = b ++ sep ++ a := by
  intro l
  induction l with
  | nil => intro b a h; simp [findSplit] at h
  | cons c cs ih =>
    intro b a h
    rw [findSplit] at h
    by_cases hp : sep.isPrefixOf (c :: cs) = true
    · rw [if_pos hp] at h
      obtain ⟨t, ht⟩ := List.isPrefixOf_iff_prefix.mp hp
      injection h with h1
      injection h1 with hb ha
      subst hb
      rw [← ht, List.drop_left] at ha
      rw [List.nil_append, ← ht, ha]
    · rw [if_neg hp] at h
      cases hr : findSplit sep cs with
      | none => rw [hr] at h; simp at h
      | some p =>
        obtain ⟨b', a'⟩ := p
        rw [hr] at h
        simp only at h
        injection h with h1
        injection h1 with hb ha
        subst hb
        subst ha
        rw [List.cons_append]
        exact congrArg (List.cons c) (ih b' a' hr)

theorem string_data_append (a b : String) : (a ++ b).data = a.data ++ b.data := rfl

theorem resolve_second (fetch g : String → Except PytubeError Unit) (st : CacheState)
    (link1 link2 : String) (hk : videoId link1 = videoId link2)
    (st' : CacheState) (h : String) (evs : List Event)
    (hget : get_video_path_for_clue fetch st link1 = (st', h, evs))
    (hne : h ≠ ERR_VIDEO_PATH) :
    get_video_path_for_clue g st' link2 = (st', h, []) := by
  simp only [get_video_path_for_clue] at hget ⊢
  rw [← hk]
  by_cases hc : st.keys.contains (videoId link1) = true
  · rw [if_pos hc] at hget
    injection hget with hA hBC
    injection hBC with hB hC
    subst hA
    subst hB
    rw [if_pos hc]
  · rw [if_neg hc] at hget
    cases hf : fetch link1 with
    | error e =>
      rw [hf] at hget
      injection hget with hA hBC
      injection hBC with hB hC
      rw [← hB] at hne
      exact absurd rfl hne
    | ok u =>
      rw [hf] at hget
      injection hget with hA hBC
      injection hBC with hB hC
      subst hA
      subst hB
      rw [if_pos]
      simp [List.contains_cons]

theorem get_events_sub (fetch : String → Except PytubeError Unit) (st : CacheState)
    (link : String) :
    (get_video_path_for_clue fetch st link).2.2 = []
    ∨ (get_video_path_for_clue fetch st link).2.2 = [Event.fetchCall link] := by
  simp only [get_video_path_for_clue]
  by_cases hc : st.keys.contains (videoId link) = true
  · rw [if_pos hc]
    exact Or.inl rfl
  · rw [if_neg hc]
    cases fetch link
    · exact Or.inr rfl
    · exact Or.inr rfl

theorem collectClips_no_export (env : Env) :
    ∀ (cs : List Clue) (cache : CacheState) (p : String),
      Event.exportCall p ∉ (collectClips env cache cs).2.1 := by
  intro cs
  induction cs with
  | nil => intro cache p; simp [collectClips]
  | cons c cs ih =>
    intro cache p
    have hev : (collectClips env cache (c :: cs)).2.1 =
        (get_video_path_for_clue env.fetch cache c.link).2.2 ++
          (collectClips env (get_video_path_for_clue env.fetch cache c.link).1 cs).2.1 := by
      simp only [collectClips]
      split <;> rfl
    rw [hev]
    intro hmem
    rcases List.mem_append.mp hmem with h1 | h2
    · rcases get_events_sub env.fetch cache c.link with he | he
      · rw [he] at h1
        simp at h1
      · rw [he] at h1
        simp at h1
    · exact ih _ p h2

theorem generateAudio_no_export (env : Env) (clips : List Clip) (p : String) :
    Event.exportCall p ∉ (generateAudio env clips).1 := by
  intro hmem
  simp [generateAudio] at hmem

theorem dedupAux_mem : ∀ (l seen : List String) (y : String),
    y ∈ dedupAux seen l ↔ (y ∈ l ∧ y ∉ seen) := by
  intro l
  induction l with
  | nil => intro seen y; simp [dedupAux]
  | cons x xs ih =>
    intro seen y
    simp only [dedupAux]
    by_cases hc : seen.contains x = true
    · rw [if_pos hc, ih seen y]
      have hx : x ∈ seen := List.mem_of_elem_eq_true hc
      constructor
      · rintro ⟨h1, h2⟩
        exact ⟨List.mem_cons_of_mem x h1, h2⟩
      · rintro ⟨h1, h2⟩
        rcases List.mem_cons.mp h1 with rfl | h1'
        · exact absurd hx h2
        · exact ⟨h1', h2⟩
    · rw [if_neg hc]
      have hx : x ∉ seen := fun hm => hc (List.elem_iff.mpr hm)
      simp only [List.mem_cons, ih (x :: seen) y]
      constructor
      · rintro (rfl | ⟨h1, h2⟩)
        · exact ⟨Or.inl rfl, hx⟩
        · exact ⟨Or.inr h1, fun hy => h2 (Or.inr hy)⟩
      · rintro ⟨h1 | h1, h2⟩
        · exact Or.inl h1
        · by_cases hxy : y = x
          · exact Or.inl hxy
          · refine Or.inr ⟨h1, ?_⟩
            intro hy
            rcases hy with h3 | h3
            · exact hxy h3
            · exact h2 h3

theorem dedupAux_sublist : ∀ (l seen : List String), (dedupAux seen l).Sublist l := by
  intro l
  induction l with
  | nil => intro seen; simp [dedupAux]
  | cons x xs ih =>
    intro seen
    simp only [dedupAux]
    by_cases hc : seen.contains x = true
    · rw [if_pos hc]
      exact List.Sublist.cons x (ih seen)
    · rw [if_neg hc]
      exact List.Sublist.cons₂ x (ih (x :: seen))

theorem dedupAux_nodup : ∀ (l seen : List String), (dedupAux seen l).Nodup := by
  intro l
  induction l with
  | nil => intro seen; simp [dedupAux]
  | cons x xs ih =>
    intro seen
    simp only [dedupAux]
    by_cases hc : seen.contains x = true
    · rw [if_pos hc]
      exact ih seen
    · rw [if_neg hc]
      refine List.nodup_cons.mpr ⟨?_, ih (x :: seen)⟩
      intro hmem
      exact ((dedupAux_mem xs (x :: seen) x).mp hmem).2 (List.mem_cons_self x seen)

theorem parseLoop_cons_ok_nil {cur cur' : Question} {r : Row} (rs : List Row)
    (h : parseStep cur r = .ok ([], cur')) :
    parseLoop (r :: rs) cur = parseLoop rs cur' := by
  rw [parseLoop_cons_ok rs h]
  cases parseLoop rs cur' <;> simp

theorem parseLoop_blank_flush (cur : Question) (rest : List Row)
    (h : cur ≠ generate_empty_question) :
    parseLoop (blankRow :: rest) cur =
      (parseLoop rest generate_empty_question).map (cur :: ·) := by
  rw [parseLoop_cons_ok rest (parseStep_blank_ne (by decide) h)]
  cases parseLoop rest generate_empty_question <;> simp [Except.map]

theorem parseLoop_blank_skip (rest : List Row) :
    parseLoop (blankRow :: rest) generate_empty_question =
      parseLoop rest generate_empty_question := by
  rw [parseLoop_cons_ok rest (parseStep_blank_empty (by decide) rfl)]
  cases parseLoop rest generate_empty_question <;> simp

theorem parseLoop_nil_clueless (cur : Question) (h : cur.clues = []) :
    parseLoop [] cur = .ok [] := by
  simp [parseLoop, h]

theorem isMarkerRow_desc_ne {r : Row} (h : isMarkerRow r = true) : r.description ≠ "" := by
  rcases (by simpa [isMarkerRow] using h :
      pyStartsWith r.description questionMarker = true
      ∨ pyStartsWith r.description answerMarker = true) with h1 | h1
  · exact desc_ne_empty_of_marker (by decide) h1
  · exact desc_ne_empty_of_marker (by decide) h1

theorem isClueRow_false_of_marker {r : Row} (h : isMarkerRow r = true) :
    isClueRow r = false := by
  rcases (by simpa [isMarkerRow] using h :
      pyStartsWith r.description questionMarker = true
      ∨ pyStartsWith r.description answerMarker = true) with h1 | h1
  · simp [isClueRow, h1]
  · simp [isClueRow, h1]

theorem markerRun (block : List Row) : ∀ (cur : Question) (q : String) (rest : List Row),
    cur.qid = some q → q ≠ "" →
    (∀ r ∈ block, isMarkerRow r = true) →
    (∀ r ∈ block, r.qid = "" ∨ r.qid = q) →
    ∃ cur' : Question, cur'.qid = some q ∧ cur'.clues = cur.clues ∧
      parseLoop (block ++ rest) cur = parseLoop rest cur' := by
  induction block with
  | nil =>
    intro cur q rest hq _ _ _
    exact ⟨cur, hq, rfl, rfl⟩
  | cons r bs ih =>
    intro cur q rest hq hqne hm hid
    have hmr : isMarkerRow r = true := hm r (List.mem_cons_self r bs)
    have hb : isBlankRow r = false := isBlankRow_false_of_desc (isMarkerRow_desc_ne hmr)
    have hd : hasDifferentQuestionId cur r = false := by
      rcases hid r (List.mem_cons_self r bs) with h0 | h0
      · simp [hasDifferentQuestionId, hq, h0]
      · simp [hasDifferentQuestionId, hq, h0]
    have hf : pyFalsy cur.qid = false := by
      rw [hq]
      simp [pyFalsy, hqne]
    obtain ⟨c', hc', hcq, hcc⟩ := classifyRow_marker cur r (isClueRow_false_of_marker hmr)
    have hstep : parseStep cur r = .ok ([], c') := by
      rw [parseStep_cont hb hd, processRow_set cur r hf, hc']
    rw [List.cons_append, parseLoop_cons_ok_nil (bs ++ rest) hstep]
    obtain ⟨cur', h1, h2, h3⟩ := ih c' q rest (by rw [hcq]; exact hq) hqne
      (fun r' hr' => hm r' (List.mem_cons_of_mem r hr'))
      (fun r' hr' => hid r' (List.mem_cons_of_mem r hr'))
    exact ⟨cur', h1, by rw [h2, hcc], h3⟩

theorem markerBlockStart (r0 : Row) (hm : isMarkerRow r0 = true)
    (hid : pyStrip r0.qid ≠ "") :
    ∃ c0 : Question, c0.qid = some r0.qid ∧ c0.clues = [] ∧
      ∀ rest : List Row,
        parseLoop (r0 :: rest) generate_empty_question = parseLoop rest c0 := by
  have hb : isBlankRow r0 = false := isBlankRow_false_of_desc (isMarkerRow_desc_ne hm)
  have hd : hasDifferentQuestionId generate_empty_question r0 = false := rfl
  have hq0 : (pyStrip r0.qid == "") = false := by
    simp [hid]
  obtain ⟨c0, hc0, hcq, hcc⟩ :=
    classifyRow_marker { generate_empty_question with qid := some r0.qid } r0
      (isClueRow_false_of_marker hm)
  refine ⟨c0, by rw [hcq], by rw [hcc]; rfl, ?_⟩
  intro rest
  have hstep : parseStep generate_empty_question r0 = .ok ([], c0) := by
    rw [parseStep_cont hb hd, processRow_falsy_ok generate_empty_question r0 rfl hq0, hc0]
  exact parseLoop_cons_ok_nil rest hstep

/-- C1.  The spec says a question block consisting only of prompt/answer
rows, terminated by a blank row, is silently dropped, and that a Question
with an empty clue sequence is materialized only as the sole now-terminated
block at end of input.  The code does the opposite: the blank-row terminator
appends the clue-less accumulator (only a fully empty accumulator is
skipped), so the block IS materialized, with an empty clue sequence. -/
theorem c1_counterexample :
    parse_csv [promptOnlyRow, blankRow] =
      .ok [{ qid := some "Q1", question := "hi", answer := "", clues := [] }] := by
  rfl

/-- C1 (amended).  (i) A blank row materializes ANY non-empty accumulator —
in particular the clue-less one a prompt/answer-only block builds — ahead of
the rest of the parse, wherever the blank row occurs; (ii) only the
all-empty accumulator (a block with no rows at all) is skipped by a blank
row; (iii) a clue-less accumulator at end of input yields no Question,
whatever it holds; (iv) a block made of one id-bearing prompt/answer row
followed by any number of further prompt and/or answer rows, terminated by
a blank row, is materialized as exactly one Question with an empty clue
sequence, while the same block followed by end of input yields none. -/
theorem c1_amended :
    (∀ (cur : Question) (rest : List Row), cur ≠ generate_empty_question →
      parseLoop (blankRow :: rest) cur =
        (parseLoop rest generate_empty_question).map (cur :: ·))
    ∧ (∀ rest : List Row,
        parseLoop (blankRow :: rest) generate_empty_question =
          parseLoop rest generate_empty_question)
    ∧ (∀ cur : Question, cur.clues = [] → parseLoop [] cur = .ok [])
    ∧ (∀ (r0 : Row) (block rest : List Row),
        isMarkerRow r0 = true → pyStrip r0.qid ≠ "" →
        (∀ r ∈ block, isMarkerRow r = true) →
        (∀ r ∈ block, r.qid = "" ∨ r.qid = r0.qid) →
        ∃ cur' : Question, cur'.qid = some r0.qid ∧ cur'.clues = [] ∧
          parse_csv (r0 :: (block ++ blankRow :: rest)) =
            (parse_csv rest).map (cur' :: ·)
          ∧ parse_csv (r0 :: block) = .ok []) := by
  refine ⟨parseLoop_blank_flush, parseLoop_blank_skip, parseLoop_nil_clueless, ?_⟩
  intro r0 block rest hm hid hbm hbi
  obtain ⟨c0, h0q, h0c, hrun⟩ := markerBlockStart r0 hm hid
  have hqne : r0.qid ≠ "" := ne_empty_of_strip (by simp [hid])
  obtain ⟨cur', h1, h2, h3⟩ :=
    markerRun block c0 r0.qid (blankRow :: rest) h0q hqne hbm hbi
  have h2' : cur'.clues = [] := by rw [h2, h0c]
  refine ⟨cur', h1, h2', ?_, ?_⟩
  · rw [parse_csv, hrun (block ++ blankRow :: rest), h3]
    have hne : cur' ≠ generate_empty_question := by
      intro he
      rw [he] at h1
      simp [generate_empty_question] at h1
    rw [parseLoop_blank_flush cur' rest hne]
    rfl
  · obtain ⟨cur2, g1, g2, g3⟩ := markerRun block c0 r0.qid [] h0q hqne hbm hbi
    rw [List.append_nil] at g3
    rw [parse_csv, hrun block, g3, parseLoop_nil_clueless cur2 (by rw [g2, h0c])]

/-- C1 (amended) at concrete instances: a flush of a concrete clue-less
accumulator, its disappearance at end of input, and a two-row
prompt-then-answer trailing block yielding no Question. -/
theorem c1_amended_witness :
    parseLoop (blankRow :: []) (promptOnlyQuestion promptOnlyRow) =
      (parseLoop [] generate_empty_question).map (promptOnlyQuestion promptOnlyRow :: ·)
    ∧ parseLoop [] (promptOnlyQuestion promptOnlyRow) = .ok []
    ∧ parse_csv [promptOnlyRow, answerOnlyRow] = .ok [] := by
  refine ⟨?_, ?_, ?_⟩
  · exact c1_amended.1 (promptOnlyQuestion promptOnlyRow) [] (by decide)
  · exact c1_amended.2.2.1 (promptOnlyQuestion promptOnlyRow) rfl
  · obtain ⟨cur', h1, h2, h3, h4⟩ :=
      c1_amended.2.2.2 promptOnlyRow [answerOnlyRow] [] (by decide) (by decide)
        (by decide) (by decide)
    exact h4

theorem exists_error_iff (x : Except MalformedInput (List Question)) :
    (∃ e, x = .error e) ↔ exceptOk x = false := by
  cases x <;> simp [exceptOk]

theorem c2_counterexample :
    parse_csv [negStartRow] =
      .ok [{ qid := some "Q1", question := "", answer := "",
             clues := [⟨"c", "l", -1, 2⟩] }]
    ∧ parse_csv [wsIdRow] = .error .missingQuestionId
    ∧ wsIdRow.qid ≠ "" :=
  ⟨rfl, rfl, by decide⟩

theorem c2_amended (rows : List Row) :
    (∃ e, parse_csv rows = .error e) ↔ hasBadRow none rows = true := by
  rw [exists_error_iff, parse_csv,
    parseLoop_ok_char rows generate_empty_question (fun _ => rfl)
      (by intro q hq; simp [generate_empty_question] at hq)]
  simp [generate_empty_question]

/-- C3.  The claim "one Question per non-empty block" fails for a trailing
clue-less block with no final blank-row separator: this well-formed one-row
input has one non-empty block but parse_csv returns no Question. -/
theorem c3_counterexample :
    parse_csv [promptOnlyRow] = .ok [] ∧ countBlocksAux none [promptOnlyRow] = 1 :=
  ⟨rfl, rfl⟩

/-- C3 (amended).  On success, the parsed questions correspond one-to-one,
in first-encountered order, to the non-empty blocks (delimited by blank rows
or by a change of non-empty question id), each Question carrying its block's
first-row id — except that a trailing block with no clue rows and no final
blank-row separator yields no Question (a trailing block with at least one
clue row is included). -/
theorem c3_amended (rows : List Row) (qs : List Question)
    (h : parse_csv rows = .ok qs) :
    qs.map Question.qid = (outputIds none false rows).map some := by
  have h2 := parseLoop_ids rows generate_empty_question qs (fun _ => rfl)
    (by intro q hq; simp [generate_empty_question] at hq) h
  simpa [generate_empty_question] using h2

/-- C3 (amended) at a concrete input: a mid-block id change closes the
prior block; two rows yield two Questions in order. -/
theorem c3_amended_witness :
    ([⟨some "Q1", "", "", [⟨"clue a", "l1", 3, 4⟩]⟩,
      ⟨some "Q2", "", "", [⟨"clue b", "l2", 5, 6⟩]⟩] : List Question).map Question.qid =
      (outputIds none false [idChangeRow1, idChangeRow2]).map some :=
  c3_amended [idChangeRow1, idChangeRow2] _ rfl

/-- C10.  The cache key is exactly the substring after the first occurrence
of the marker `watch?v=` in the link; links sharing that substring resolve
through the same cache entry; links not containing the marker all key to the
empty string. -/
theorem c10 :
    (∀ pre post : String, 'w' ∉ pre.data →
      videoId (pre ++ "watch?v=" ++ post) = post)
    ∧ (∀ link : String,
        ¬ ("watch?v=" : String).data <:+: link.data → videoId link = "")
    ∧ (∀ (fetch g : String → Except PytubeError Unit) (st : CacheState)
        (link1 link2 : String), videoId link1 = videoId link2 →
        ∀ (st' : CacheState) (h : String) (evs : List Event),
          get_video_path_for_clue fetch st link1 = (st', h, evs) →
          h ≠ ERR_VIDEO_PATH →
          get_video_path_for_clue g st' link2 = (st', h, [])) := by
  refine ⟨?_, ?_, ?_⟩
  · intro pre post hw
    unfold videoId pyPartitionLast
    rw [string_data_append, string_data_append,
      findSplit_first ("watch?v=" : String).data 'w' (by decide) pre.data post.data hw]
  · intro link hinf
    unfold videoId pyPartitionLast
    cases hf : findSplit ("watch?v=" : String).data link.data with
    | none => rfl
    | some p =>
      obtain ⟨b, a⟩ := p
      exact absurd ⟨b, a, (findSplit_some_structure _ _ _ _ hf).symm⟩ hinf
  · exact resolve_second

/-- C10 at concrete links: key extraction, marker-free key collapse, and a
shared cache entry for two links with equal keys. -/
theorem c10_witness :
    videoId ("x" ++ "watch?v=" ++ "abc") = "abc"
    ∧ videoId "nope" = ""
    ∧ get_video_path_for_clue alwaysFail (CacheState.mk ["k"]) "watch?v=k" =
        (CacheState.mk ["k"], cachedPath "k", []) :=
  ⟨c10.1 "x" "abc" (by decide),
   c10.2.1 "nope" (by decide),
   c10.2.2 alwaysFail alwaysFail (CacheState.mk ["k"]) "watch?v=k" "watch?v=k" rfl
     (CacheState.mk ["k"]) (cachedPath "k") [] rfl (by decide)⟩

/-- C4.  The claim "resolving the same source reference twice triggers at
most one retrieval call" fails for a failing Fetcher: a failed resolution is
not cached, so each of the two resolutions of the same link performs its own
retrieval call (one fetch event each, two in total). -/
theorem c4_counterexample :
    get_video_path_for_clue alwaysFail (CacheState.mk []) "L" =
      (CacheState.mk [], ERR_VIDEO_PATH, [Event.fetchCall "L"])
    ∧ (get_video_path_for_clue alwaysFail
        (get_video_path_for_clue alwaysFail (CacheState.mk []) "L").1 "L").2.2 =
      [Event.fetchCall "L"] :=
  ⟨rfl, rfl⟩

/-- C4 (amended).  If the durable cache already holds the link's key, the
handle is returned with no Fetcher invocation, for any Fetcher; and whenever
a resolution returns a proper handle (not the Unresolved sentinel), a second
resolution of the same reference performs no retrieval call and returns the
same handle. -/
theorem c4_amended (fetch g : String → Except PytubeError Unit) (st : CacheState)
    (link : String) :
    (st.keys.contains (videoId link) = true →
      get_video_path_for_clue fetch st link = (st, cachedPath (videoId link), []))
    ∧ (∀ (st' : CacheState) (h : String) (evs : List Event),
        get_video_path_for_clue fetch st link = (st', h, evs) →
        h ≠ ERR_VIDEO_PATH →
        get_video_path_for_clue g st' link = (st', h, [])) := by
  constructor
  · intro hc
    simp only [get_video_path_for_clue]
    rw [if_pos hc]
  · intro st' h evs hget hne
    exact resolve_second fetch g st link link rfl st' h evs hget hne

/-- C4 (amended) at a concrete cached key. -/
theorem c4_amended_witness :
    get_video_path_for_clue alwaysFail (CacheState.mk ["abc"]) "watch?v=abc" =
      (CacheState.mk ["abc"], cachedPath "abc", [])
    ∧ get_video_path_for_clue alwaysFail (CacheState.mk ["abc"]) "watch?v=abc" =
      (CacheState.mk ["abc"], cachedPath "abc", []) :=
  ⟨(c4_amended alwaysFail alwaysFail (CacheState.mk ["abc"]) "watch?v=abc").1 (by decide),
   (c4_amended alwaysFail alwaysFail (CacheState.mk ["abc"]) "watch?v=abc").2
     (CacheState.mk ["abc"]) (cachedPath "abc") [] rfl (by decide)⟩

/-- C5.  When the Fetcher capability reports a failure for an uncached
reference, resolution returns the Unresolved sentinel with the cache
unchanged; the model is a total function, so no exception escapes the
boundary (the source catches exactly the capability's PytubeError). -/
theorem c5 (fetch : String → Except PytubeError Unit) (st : CacheState) (link : String)
    (e : PytubeError) (hf : fetch link = .error e)
    (hm : st.keys.contains (videoId link) = false) :
    get_video_path_for_clue fetch st link = (st, ERR_VIDEO_PATH, [.fetchCall link]) := by
  simp only [get_video_path_for_clue]
  rw [hm, hf]
  simp

/-- C5 at a concrete failing fetch. -/
theorem c5_witness :
    get_video_path_for_clue alwaysFail (CacheState.mk []) "L" =
      (CacheState.mk [], ERR_VIDEO_PATH, [.fetchCall "L"]) :=
  c5 alwaysFail (CacheState.mk []) "L" ⟨"boom"⟩ rfl rfl

/-- C6.  When the audio accumulated for a selected, non-skipped question
has total duration zero (e.g. every clue failed retrieval), the outcome is
NoCluesResolved: the transcript entry is still collected, no file is
written, no export event is emitted, and the run proceeds to the next
question. -/
theorem c6 (env : Env) (args : Args) (st : RunState) (q : Question) (rest : List Question)
    (hsel : isSelected args q = true)
    (hskip : (st.files.contains (outputPath args.output_dir ((q.qid).getD ""))
        && !args.overwrite) = false)
    (hdur : (generateAudio env (collectClips env st.cache q.clues).2.2).2 = 0) :
    processQuestion env args st q =
      ({ st with
          texts := st.texts ++ [transcriptEntry q]
          cache := (collectClips env st.cache q.clues).1
          events := st.events ++ (collectClips env st.cache q.clues).2.1 ++
            (generateAudio env (collectClips env st.cache q.clues).2.2).1 },
        Outcome.noCluesResolved)
    ∧ (processQuestion env args st q).1.files = st.files
    ∧ (∀ p, Event.exportCall p ∈ (processQuestion env args st q).1.events →
        Event.exportCall p ∈ st.events)
    ∧ runQuestions env args st (q :: rest) =
        ((runQuestions env args (processQuestion env args st q).1 rest).1,
          Outcome.noCluesResolved ::
            (runQuestions env args (processQuestion env args st q).1 rest).2) := by
  have hmain : processQuestion env args st q =
      ({ st with
          texts := st.texts ++ [transcriptEntry q]
          cache := (collectClips env st.cache q.clues).1
          events := st.events ++ (collectClips env st.cache q.clues).2.1 ++
            (generateAudio env (collectClips env st.cache q.clues).2.2).1 },
        Outcome.noCluesResolved) := by
    have hskip2 : outputPath args.output_dir (q.qid.getD "") ∈ st.files →
        args.overwrite = true := by
      intro hmem
      by_cases hov : args.overwrite = true
      · exact hov
      · exfalso
        rw [bool_eq_false hov] at hskip
        have hc : st.files.contains (outputPath args.output_dir (q.qid.getD "")) = true :=
          List.elem_iff.mpr hmem
        rw [hc] at hskip
        simp at hskip
    simp [processQuestion, hsel, hdur]
    exact hskip2
  refine ⟨hmain, ?_, ?_, ?_⟩
  · rw [hmain]
  · intro p hp
    rw [hmain] at hp
    simp only [List.append_assoc, List.mem_append] at hp
    rcases hp with h1 | h2 | h3
    · exact h1
    · exact absurd h2 (collectClips_no_export env q.clues st.cache p)
    · exact absurd h3 (generateAudio_no_export env _ p)
  · have houtc : (processQuestion env args st q).2 = Outcome.noCluesResolved := by
      rw [hmain]
    simp only [runQuestions, houtc]

/-- C6 at a concrete question whose only clue fails retrieval. -/
theorem c6_witness :
    processQuestion constEnv allArgs st0 q6 =
      ({ st0 with
          texts := st0.texts ++ [transcriptEntry q6]
          cache := (collectClips constEnv st0.cache q6.clues).1
          events := st0.events ++ (collectClips constEnv st0.cache q6.clues).2.1 ++
            (generateAudio constEnv (collectClips constEnv st0.cache q6.clues).2.2).1 },
        Outcome.noCluesResolved) :=
  (c6 constEnv allArgs st0 q6 [] (by decide) (by decide) (by decide)).1

/-- C7.  When the question's output artifact already exists and overwrite
is false, the outcome is SkippedExisting and the ONLY state change is the
transcript entry: no fetch, decode, or export event, no cache or file
change. -/
theorem c7 (env : Env) (args : Args) (st : RunState) (q : Question)
    (hsel : isSelected args q = true)
    (hex : st.files.contains (outputPath args.output_dir ((q.qid).getD "")) = true)
    (hov : args.overwrite = false) :
    processQuestion env args st q =
      ({ st with texts := st.texts ++ [transcriptEntry q] }, Outcome.skippedExisting) := by
  have hmem : outputPath args.output_dir (q.qid.getD "") ∈ st.files :=
    List.mem_of_elem_eq_true hex
  simp [processQuestion, hsel, hov, hmem]

/-- C7 at a concrete pre-existing artifact. -/
theorem c7_witness :
    processQuestion constEnv allArgs stExisting q6 =
      ({ stExisting with texts := stExisting.texts ++ [transcriptEntry q6] },
        Outcome.skippedExisting) :=
  c7 constEnv allArgs stExisting q6 (by decide) (by decide) rfl

/-- C8.  The transcript clue list is the clue descriptions deduplicated
preserving first-occurrence order (`["x","y","x"]` gives `["x","y"]`; in
general the result is an order-preserving duplicate-free sublist with the
same members), collected for every selected question; audio assembly still
processes the full original clue sequence in order (one clip per original
clue when all resolve). -/
theorem c8 :
    dedupKeepFirst ["x", "y", "x"] = ["x", "y"]
    ∧ (∀ l : List String,
        (dedupKeepFirst l).Sublist l ∧ (dedupKeepFirst l).Nodup
          ∧ ∀ y, y ∈ dedupKeepFirst l ↔ y ∈ l)
    ∧ (∀ (env : Env) (args : Args) (st : RunState) (q : Question),
        isSelected args q = true →
        (processQuestion env args st q).1.texts = st.texts ++ [transcriptEntry q])
    ∧ (∀ (env : Env) (cache : CacheState) (clues : List Clue),
        (∀ c ∈ clues, cache.keys.contains (videoId c.link) = true) →
        (collectClips env cache clues).2.2 =
          clues.map (fun c => ⟨cachedPath (videoId c.link), c.start, c.len⟩)) := by
  refine ⟨by decide, ?_, ?_, ?_⟩
  · intro l
    refine ⟨dedupAux_sublist l [], dedupAux_nodup l [], ?_⟩
    intro y
    rw [dedupKeepFirst, dedupAux_mem l [] y]
    simp
  · intro env args st q hsel
    simp only [processQuestion, hsel, Bool.not_true, Bool.false_eq_true, if_false]
    split
    · rfl
    · split
      · rfl
      · rfl
  · intro env cache clues
    induction clues generalizing cache with
    | nil => intro _; simp [collectClips]
    | cons c cs ih =>
      intro h
      have hc := h c (List.mem_cons_self c cs)
      have hget : get_video_path_for_clue env.fetch cache c.link =
          (cache, cachedPath (videoId c.link), []) := by
        simp only [get_video_path_for_clue]
        rw [if_pos hc]
      have hne : cachedPath (videoId c.link) ≠ ERR_VIDEO_PATH := by
        intro he
        have h2 : (cachedPath (videoId c.link)).data.head? =
            (ERR_VIDEO_PATH).data.head? := congrArg (fun s : String => s.data.head?) he
        rw [show (cachedPath (videoId c.link)).data.head? = some 'v' from rfl] at h2
        rw [show (ERR_VIDEO_PATH).data.head? = some '_' from rfl] at h2
        simp at h2
      simp only [collectClips, hget]
      rw [if_neg hne]
      rw [ih cache (fun c' hc' => h c' (List.mem_cons_of_mem c hc'))]
      simp

/-- C8 at a concrete question with duplicate clue descriptions. -/
theorem c8_witness :
    (processQuestion okEnv allArgs st0 q8).1.texts = st0.texts ++ [transcriptEntry q8]
    ∧ (collectClips okEnv (CacheState.mk ["k"]) q8.clues).2.2 =
        q8.clues.map (fun c => ⟨cachedPath (videoId c.link), c.start, c.len⟩) :=
  ⟨c8.2.2.1 okEnv allArgs st0 q8 (by decide),
   c8.2.2.2 okEnv (CacheState.mk ["k"]) q8.clues (by decide)⟩

/-- C9.  A row whose description starts with the question or answer marker
never has its link/start/length fields read: the parse step is unchanged
under arbitrary replacement of those three fields, and such a row can never
raise the non-numeric-field error. -/
theorem c9 (cur : Question) (r : Row) (link2 start2 len2 : String)
    (hm : (pyStartsWith r.description questionMarker
        || pyStartsWith r.description answerMarker) = true) :
    parseStep cur r =
      parseStep cur { r with link := link2, start := start2, len := len2 }
    ∧ ∀ c : Question, processRow c r ≠ .error .nonNumericField := by
  have hdesc : r.description ≠ "" := by
    rcases (by simpa using hm :
        pyStartsWith r.description questionMarker = true
        ∨ pyStartsWith r.description answerMarker = true) with h1 | h1
    · exact desc_ne_empty_of_marker (by decide) h1
    · exact desc_ne_empty_of_marker (by decide) h1
  have hclr : isClueRow r = false := by
    rcases (by simpa using hm :
        pyStartsWith r.description questionMarker = true
        ∨ pyStartsWith r.description answerMarker = true) with h1 | h1
    · simp [isClueRow, h1]
    · simp [isClueRow, h1]
  have hcleq : ∀ c : Question,
      classifyRow c r =
        classifyRow c { r with link := link2, start := start2, len := len2 } := by
    intro c
    rcases (by simpa using hm :
        pyStartsWith r.description questionMarker = true
        ∨ pyStartsWith r.description answerMarker = true) with h1 | h1
    · simp [classifyRow, h1]
    · by_cases h0 : pyStartsWith r.description questionMarker = true
      · simp [classifyRow, h0]
      · simp [classifyRow, bool_eq_false h0, h1]
  have hpr : ∀ c : Question, processRow c r =
      processRow c { r with link := link2, start := start2, len := len2 } := by
    intro c
    by_cases hf : pyFalsy c.qid = true
    · by_cases hq0 : (pyStrip r.qid == "") = true
      · rw [processRow_falsy_bad c r hf hq0,
          processRow_falsy_bad c { r with link := link2, start := start2, len := len2 }
            hf hq0]
      · have hq0' := bool_eq_false hq0
        rw [processRow_falsy_ok c r hf hq0',
          processRow_falsy_ok c { r with link := link2, start := start2, len := len2 }
            hf hq0']
        exact hcleq _
    · have hf' := bool_eq_false hf
      rw [processRow_set c r hf',
        processRow_set c { r with link := link2, start := start2, len := len2 } hf']
      exact hcleq c
  constructor
  · have hb1 : isBlankRow r = false := isBlankRow_false_of_desc hdesc
    have hb2 : isBlankRow { r with link := link2, start := start2, len := len2 } = false :=
      isBlankRow_false_of_desc hdesc
    by_cases hd : hasDifferentQuestionId cur r = true
    · rw [parseStep_newblock hb1 hd, parseStep_newblock hb2 hd,
        hpr generate_empty_question]
    · have hd' := bool_eq_false hd
      rw [parseStep_cont hb1 hd', parseStep_cont hb2 hd', hpr cur]
  · intro c hcon
    by_cases hf : pyFalsy c.qid = true
    · by_cases hq0 : (pyStrip r.qid == "") = true
      · rw [processRow_falsy_bad c r hf hq0] at hcon
        simp at hcon
      · have hq0' := bool_eq_false hq0
        rw [processRow_falsy_ok c r hf hq0'] at hcon
        obtain ⟨c', hc', _, _⟩ := classifyRow_marker _ r hclr
        rw [hc'] at hcon
        simp at hcon
    · rw [processRow_set c r (bool_eq_false hf)] at hcon
      obtain ⟨c', hc', _, _⟩ := classifyRow_marker c r hclr
      rw [hc'] at hcon
      simp at hcon

/-- C9 at a concrete prompt row with non-numeric link/start/length fields. -/
theorem c9_witness :
    parseStep generate_empty_question q9row =
      parseStep generate_empty_question { q9row with link := "", start := "", len := "" }
    ∧ processRow generate_empty_question q9row ≠ .error .nonNumericField :=
  ⟨(c9 generate_empty_question q9row "" "" "" (by decide)).1,
   (c9 generate_empty_question q9row "" "" "" (by decide)).2 generate_empty_question⟩

end GenerateAudio
